import Mathlib

/-!
Shallow embedding of `src/main.py` (tinyteam.reddit): a polling loop that
searches a content source for keywords, deduplicates against a store,
classifies new items, persists them, and rate-limits inserts.

Modelling conventions:
* Time is a `Nat` clock in seconds; `time.sleep(d)` advances the clock by `d`.
  Operations themselves take zero time, so events that happen between two
  sleeps share a timestamp.
* The MongoDB collection is a `List PostData` in insertion order;
  `find_one {id := i}` is `List.find?`, `insert_one` is an append.
* The sentiment pipeline is a parameter `pipeline : String → SentimentResult`.
* Exceptions are modelled by short-circuiting with the state reached so far
  (Python exceptions do not roll back mutations), tagged with which `except`
  arm of `fetch_reddit_posts` would catch them.
* Ghost instrumentation (not present in the Python source, and never read by
  the modelled control flow): `classify_calls` records the id of the item
  whose title was passed to the classifier at each classification call;
  `since_reset` records the clock timestamp of every insert since the last
  rate-limit reset; `windows` records, for each completed rate window, its
  start time and the timestamps of its inserts.
-/

namespace TinyTeamReddit

/-- One item returned by `reddit.subreddit('all').search(...)`. -/
structure Submission where
  id : String
  title : String
  url : String
  score : Int
  num_comments : Nat
  created_utc : Nat
  subreddit : String
deriving DecidableEq

/-- Result of `sentiment_pipeline(title)[0]`: a label and a confidence score. -/
structure SentimentResult where
  label : String
  score : Rat
deriving DecidableEq

/-- The `post_data` document inserted into MongoDB (lines 67-78 of main.py). -/
structure PostData where
  keyword : String
  title : String
  url : String
  score : Int
  num_comments : Nat
  created_utc : Nat
  subreddit : String
  id : String
  sentiment_label : String
  sentiment_score : Rat
deriving DecidableEq

/-- `wait_for_rate_limit(start_time)` (main.py lines 102-108): returns the
clock after the call. If less than 60 seconds elapsed since `start_time`,
sleep `60 - elapsed`; otherwise return immediately. -/
def wait_for_rate_limit (clock start_time : Nat) : Nat :=
  if clock - start_time < 60 then clock + (60 - (clock - start_time)) else clock

/-- The mutable state of `fetch_reddit_posts` plus the store and the clock.
`store`, `start_time`, `requests_made`, `last_fetch_time`, `cycle_count`
mirror the Python variables; `clock` is the current time; the remaining
fields are ghost instrumentation (see module docstring). -/
structure FetchState where
  store : List PostData
  start_time : Nat
  requests_made : Nat
  last_fetch_time : Nat
  cycle_count : Nat
  clock : Nat
  classify_calls : List String
  since_reset : List Nat
  windows : List (Nat × List Nat)
deriving DecidableEq

/-- The initial state of `fetch_reddit_posts` (lines 32-35), entered at time
`clock0` with store contents `store0`: `start_time = now`, counters zero,
`last_fetch_time = 0`. -/
def initState (clock0 : Nat) (store0 : List PostData) : FetchState :=
  { store := store0
    start_time := clock0
    requests_made := 0
    last_fetch_time := 0
    cycle_count := 0
    clock := clock0
    classify_calls := []
    since_reset := []
    windows := [] }

/-- A submission as delivered by one search, together with a fault-injection
flag: `insert_fails = true` means the `collection.insert_one` call for this
item raises an exception. -/
structure FetchedItem where
  sub : Submission
  insert_fails : Bool

/-- The outcome of one `search` call for one keyword: either a list of items
or a raised `PrawcoreException`. -/
inductive Batch where
  | ok (items : List FetchedItem)
  | searchErr

/-- Which `except` arm of `fetch_reddit_posts` catches the exception:
`prawcore` for `PrawcoreException` (line 93), `other` for `Exception`
(line 97). -/
inductive CycleError where
  | prawcore
  | other
deriving DecidableEq

/-- The environment's behaviour during one iteration of the `while True`
loop: for each keyword (in list order), what its search returns. -/
abbrev Cycle := List (String × Batch)

/-- The document built at lines 67-78. -/
def mkPostData (kw : String) (sub : Submission) (res : SentimentResult) : PostData :=
  { keyword := kw
    title := sub.title
    url := sub.url
    score := sub.score
    num_comments := sub.num_comments
    created_utc := sub.created_utc
    subreddit := sub.subreddit
    id := sub.id
    sentiment_label := res.label
    sentiment_score := res.score }

/-- One iteration of the `for submission in search_results` body
(lines 53-87). `counts` is the pair `(posts_fetched, new_posts_added)`.
Returns the new state, the new counts, and `some e` if an exception was
raised (only the injected `insert_one` failure can raise here). -/
def processItem (pipeline : String → SentimentResult) (kw : String)
    (s : FetchState) (counts : Nat × Nat) (it : FetchedItem) :
    FetchState × (Nat × Nat) × Option CycleError :=
  let counts1 := (counts.1 + 1, counts.2)
  if (s.store.find? (fun p => p.id == it.sub.id)).isSome then
    (s, counts1, none)
  else
    let res := pipeline it.sub.title
    let s1 := { s with classify_calls := s.classify_calls ++ [it.sub.id] }
    let counts2 := (counts1.1, counts1.2 + 1)
    if it.insert_fails then
      (s1, counts2, some CycleError.other)
    else
      let s2 := { s1 with
        store := s1.store ++ [mkPostData kw it.sub res]
        since_reset := s1.since_reset ++ [s1.clock] }
      if s2.requests_made + 1 ≥ 100 then
        let c2 := wait_for_rate_limit s2.clock s2.start_time
        ({ s2 with
            clock := c2
            windows := s2.windows ++ [(s2.start_time, s2.since_reset)]
            start_time := c2
            requests_made := 0
            since_reset := [] }, counts2, none)
      else
        ({ s2 with requests_made := s2.requests_made + 1 }, counts2, none)

/-- The whole `for submission in search_results` loop, short-circuiting on a
raised exception but keeping the state mutated so far. -/
def processItems (pipeline : String → SentimentResult) (kw : String) :
    FetchState → Nat × Nat → List FetchedItem →
    FetchState × (Nat × Nat) × Option CycleError
  | s, counts, [] => (s, counts, none)
  | s, counts, it :: rest =>
    match processItem pipeline kw s counts it with
    | (s1, counts1, none) => processItems pipeline kw s1 counts1 rest
    | (s1, counts1, some e) => (s1, counts1, some e)

/-- Handling of one keyword inside a cycle (lines 49-89): run the search,
then the item loop with fresh local counters. -/
def processBatch (pipeline : String → SentimentResult)
    (s : FetchState) : String × Batch → FetchState × Option CycleError
  | (kw, Batch.ok items) =>
    let r := processItems pipeline kw s (0, 0) items
    (r.1, r.2.2)
  | (_, Batch.searchErr) => (s, some CycleError.prawcore)

/-- The `for keyword in keywords` loop (line 48), short-circuiting on a
raised exception. -/
def runKeywords (pipeline : String → SentimentResult) :
    FetchState → List (String × Batch) → FetchState × Option CycleError
  | s, [] => (s, none)
  | s, kb :: rest =>
    match processBatch pipeline s kb with
    | (s1, none) => runKeywords pipeline s1 rest
    | (s1, some e) => (s1, some e)

/-- The inter-cycle wait (lines 40-44): if less than 60 seconds passed since
`last_fetch`, sleep the remainder. Returns the clock after the wait. -/
def waitPhase (clock last_fetch : Nat) : Nat :=
  if clock - last_fetch < 60 then clock + (60 - (clock - last_fetch)) else clock

/-- The clock at which a cycle started from state `s` performs its first
search. -/
def fetchStart (s : FetchState) : Nat := waitPhase s.clock s.last_fetch_time

/-- The `try` block of one `while True` iteration (lines 38-91): bump
`cycle_count`, wait, run all keywords. Returns the state reached and the
exception if one was raised. -/
def cycleAttempt (pipeline : String → SentimentResult)
    (s : FetchState) (c : Cycle) : FetchState × Option CycleError :=
  let s1 := { s with
    cycle_count := s.cycle_count + 1
    clock := waitPhase s.clock s.last_fetch_time }
  runKeywords pipeline s1 c

/-- One full iteration of the `while True` loop including the `except` arms:
on success record `last_fetch_time` (line 91); on any caught exception sleep
60 seconds and continue (lines 93-100). -/
def loopIter (pipeline : String → SentimentResult)
    (s : FetchState) (c : Cycle) : FetchState :=
  match cycleAttempt pipeline s c with
  | (s1, none) => { s1 with last_fetch_time := s1.clock }
  | (s1, some _) => { s1 with clock := s1.clock + 60 }

/-- Finitely many iterations of the `while True` loop, driven by a schedule
of cycle inputs. -/
def runLoop (pipeline : String → SentimentResult)
    (s : FetchState) (cycles : List Cycle) : FetchState :=
  cycles.foldl (loopIter pipeline) s

/-- `display_sentiment_stats` (lines 110-122), keyword level: the keywords
appearing as keys of the aggregated `stats` dict. -/
def summaryKeywords (store : List PostData) : List String :=
  (store.map PostData.keyword).dedup

/-- The store records for one keyword. -/
def keywordRecords (store : List PostData) (kw : String) : List PostData :=
  store.filter (fun p => p.keyword == kw)

/-- The sentiment labels appearing under keyword `kw` in the aggregation. -/
def summaryLabels (store : List PostData) (kw : String) : List String :=
  ((keywordRecords store kw).map PostData.sentiment_label).dedup

/-- The count the `$group` stage produces for the pair `(kw, lbl)`:
the number of records with that keyword and that sentiment label. -/
def summaryCount (store : List PostData) (kw lbl : String) : Nat :=
  ((keywordRecords store kw).filter (fun p => p.sentiment_label == lbl)).length

/-- The items a batch delivers before any exception. -/
def batchItems : Batch → List FetchedItem
  | Batch.ok items => items
  | Batch.searchErr => []

/-- Every fetched item in the schedule satisfies `A`. -/
def scheduleOK (A : FetchedItem → Prop) (cycles : List Cycle) : Prop :=
  ∀ c ∈ cycles, ∀ kb ∈ c, ∀ it ∈ batchItems kb.2, A it

/-- The store never holds two records with the same source id. -/
def storeIdsNodup (s : FetchState) : Prop :=
  (s.store.map PostData.id).Nodup

/-- The rate-governor counter equals the number of inserts performed since
the last counter reset. -/
def counterInv (s : FetchState) : Prop :=
  s.requests_made = s.since_reset.length

/-- The classifier has been invoked at most once per item id, and every
classified id has been persisted. -/
def classifyInv (s : FetchState) : Prop :=
  s.classify_calls.Nodup ∧ ∀ i ∈ s.classify_calls, i ∈ s.store.map PostData.id

/-- Well-formedness of a sequence of rate windows: each window starts no
earlier than `lo`, holds at most 100 insert timestamps, all of them at or
after the window's start, and the next window starts at least 60 seconds
after this one. -/
def windowChain : Nat → List (Nat × List Nat) → Prop
  | _, [] => True
  | lo, w :: rest =>
    lo ≤ w.1 ∧ w.2.length ≤ 100 ∧ (∀ t ∈ w.2, w.1 ≤ t) ∧ windowChain (w.1 + 60) rest

/-- All rate windows of a state: the completed ones plus the current one. -/
def windowSegments (s : FetchState) : List (Nat × List Nat) :=
  s.windows ++ [(s.start_time, s.since_reset)]

/-- Invariant tying the rate-governor state to the recorded windows. -/
def RateInv (s : FetchState) : Prop :=
  s.requests_made = s.since_reset.length ∧
  s.requests_made ≤ 99 ∧
  s.start_time ≤ s.clock ∧
  windowChain 0 (windowSegments s)

/-- A concrete classifier for witnesses: every title is neutral. -/
def pipe0 : String → SentimentResult := fun _ => { label := "neutral", score := 0 }

/-- A concrete submission for witnesses. -/
def subX : Submission :=
  { id := "x1", title := "t", url := "u", score := 0, num_comments := 0
    created_utc := 0, subreddit := "r" }

/-- The record that persisting `subX` under keyword "k" produces. -/
def postX : PostData := mkPostData "k" subX (pipe0 subX.title)

/-- A schedule in which the first cycle's `insert_one` for `subX` raises
after the classifier has run, and a later cycle fetches `subX` again. -/
def cexCycles : List Cycle :=
  [[("k", Batch.ok [{ sub := subX, insert_fails := true }])],
   [("k", Batch.ok [{ sub := subX, insert_fails := false }])]]

/-! ### Basic lemmas -/

theorem waitPhase_ge (t last : Nat) : t ≤ waitPhase t last := by
  unfold waitPhase; split <;> omega

theorem wait_for_rate_limit_ge (clock start : Nat) :
    clock ≤ wait_for_rate_limit clock start := by
  unfold wait_for_rate_limit; split <;> omega

theorem wait_for_rate_limit_lb (clock start : Nat) (h : start ≤ clock) :
    start + 60 ≤ wait_for_rate_limit clock start := by
  unfold wait_for_rate_limit; split <;> omega

theorem processItem_store_extend (pipeline : String → SentimentResult)
    (kw : String) (s : FetchState) (counts : Nat × Nat) (it : FetchedItem) :
    ∃ ext, (processItem pipeline kw s counts it).1.store = s.store ++ ext := by
  by_cases hex : (s.store.find? (fun p => p.id == it.sub.id)).isSome = true
  · exact ⟨[], by simp [processItem, hex]⟩
  · by_cases hf : it.insert_fails = true
    · exact ⟨[], by simp [processItem, hex, hf]⟩
    · by_cases hr : s.requests_made + 1 ≥ 100
      · exact ⟨[mkPostData kw it.sub (pipeline it.sub.title)],
          by simp [processItem, hex, hf, hr]⟩
      · exact ⟨[mkPostData kw it.sub (pipeline it.sub.title)],
          by simp [processItem, hex, hf, hr]⟩

theorem processItems_store_extend (pipeline : String → SentimentResult)
    (kw : String) : ∀ (items : List FetchedItem) (s : FetchState) (counts : Nat × Nat),
    ∃ ext, (processItems pipeline kw s counts items).1.store = s.store ++ ext
  | [], s, counts => ⟨[], by simp [processItems]⟩
  | it :: rest, s, counts => by
    obtain ⟨ext1, he1⟩ := processItem_store_extend pipeline kw s counts it
    rcases h : processItem pipeline kw s counts it with ⟨s1, counts1, e⟩
    rw [h] at he1
    cases e with
    | none =>
      obtain ⟨ext2, he2⟩ := processItems_store_extend pipeline kw rest s1 counts1
      exact ⟨ext1 ++ ext2, by
        simp only [processItems, h]
        rw [he2, he1, List.append_assoc]⟩
    | some e1 =>
      exact ⟨ext1, by simp only [processItems, h]; exact he1⟩

theorem runKeywords_store_extend (pipeline : String → SentimentResult) :
    ∀ (kbs : List (String × Batch)) (s : FetchState),
    ∃ ext, (runKeywords pipeline s kbs).1.store = s.store ++ ext
  | [], s => ⟨[], by simp [runKeywords]⟩
  | (kw, Batch.ok items) :: rest, s => by
    obtain ⟨ext1, he1⟩ := processItems_store_extend pipeline kw items s (0, 0)
    rcases h : processItems pipeline kw s (0, 0) items with ⟨s1, counts1, e⟩
    rw [h] at he1
    cases e with
    | none =>
      obtain ⟨ext2, he2⟩ := runKeywords_store_extend pipeline rest s1
      exact ⟨ext1 ++ ext2, by
        simp only [runKeywords, processBatch, h]
        rw [he2, he1, List.append_assoc]⟩
    | some e1 =>
      exact ⟨ext1, by simp only [runKeywords, processBatch, h]; exact he1⟩
  | (kw, Batch.searchErr) :: rest, s =>
    ⟨[], by simp [runKeywords, processBatch]⟩

/-! ### Claim theorems -/

/-- C1: an item whose id already has a record in the store is skipped
entirely: the returned state is unchanged (so the classifier is not called,
nothing is inserted, and the rate counter is not incremented), the exception
slot is empty, `posts_fetched` is incremented and `new_posts_added` is not. -/
theorem c1_dedup_skip (pipeline : String → SentimentResult) (kw : String)
    (s : FetchState) (counts : Nat × Nat) (it : FetchedItem)
    (hex : (s.store.find? (fun p => p.id == it.sub.id)).isSome = true) :
    processItem pipeline kw s counts it = (s, (counts.1 + 1, counts.2), none) := by
  simp [processItem, hex]

/-- Witness for C1: `subX` is already stored, so processing it again
changes nothing and counts it only as fetched. -/
theorem c1_dedup_skip_witness :
    (((initState 100 [postX]).store.find?
        (fun p => p.id == ({ sub := subX, insert_fails := false } : FetchedItem).sub.id)).isSome = true) ∧
    processItem pipe0 "k" (initState 100 [postX]) (0, 0)
        { sub := subX, insert_fails := false } =
      (initState 100 [postX], (1, 0), none) :=
  ⟨by decide,
   c1_dedup_skip pipe0 "k" (initState 100 [postX]) (0, 0)
     { sub := subX, insert_fails := false } (by decide)⟩

/-- C5: when the counter reaches the threshold 100 (99 before the item, new
item inserted), the throttle computes the elapsed time since the window
start; if it is under a minute the clock advances to exactly `start + 60`
(sleeping exactly the remaining time), otherwise it does not advance; and
the caller resets the counter to zero and the window start to the post-wait
current time. -/
theorem c5_throttle (pipeline : String → SentimentResult) (kw : String)
    (s : FetchState) (counts : Nat × Nat) (it : FetchedItem)
    (hnew : (s.store.find? (fun p => p.id == it.sub.id)).isSome = false)
    (hfault : it.insert_fails = false)
    (hcount : s.requests_made = 99)
    (hst : s.start_time ≤ s.clock) :
    (processItem pipeline kw s counts it).1.requests_made = 0 ∧
    (processItem pipeline kw s counts it).1.start_time =
      (processItem pipeline kw s counts it).1.clock ∧
    (processItem pipeline kw s counts it).1.clock =
      wait_for_rate_limit s.clock s.start_time ∧
    (s.clock < s.start_time + 60 →
      (processItem pipeline kw s counts it).1.clock = s.start_time + 60 ∧
      (processItem pipeline kw s counts it).1.clock - s.clock =
        60 - (s.clock - s.start_time)) ∧
    (s.start_time + 60 ≤ s.clock →
      (processItem pipeline kw s counts it).1.clock = s.clock) := by
  have hb : ¬ ((s.store.find? (fun p => p.id == it.sub.id)).isSome = true) := by
    simp [hnew]
  have hf : ¬ (it.insert_fails = true) := by simp [hfault]
  simp only [processItem, hb, if_false, hf, hcount]
  norm_num
  unfold wait_for_rate_limit
  split <;> constructor <;> omega

/-- Witness for C5: a fresh item arriving with the counter at 99 triggers
the throttle and the resets. -/
theorem c5_throttle_witness :
    ((({ initState 100 [] with requests_made := 99 } : FetchState).store.find?
        (fun p => p.id == ({ sub := subX, insert_fails := false } : FetchedItem).sub.id)).isSome = false) ∧
    (({ sub := subX, insert_fails := false } : FetchedItem).insert_fails = false) ∧
    (({ initState 100 [] with requests_made := 99 } : FetchState).requests_made = 99) ∧
    (({ initState 100 [] with requests_made := 99 } : FetchState).start_time ≤
      ({ initState 100 [] with requests_made := 99 } : FetchState).clock) ∧
    ((processItem pipe0 "k" { initState 100 [] with requests_made := 99 } (0, 0)
        { sub := subX, insert_fails := false }).1.requests_made = 0 ∧
     (processItem pipe0 "k" { initState 100 [] with requests_made := 99 } (0, 0)
        { sub := subX, insert_fails := false }).1.start_time =
       (processItem pipe0 "k" { initState 100 [] with requests_made := 99 } (0, 0)
        { sub := subX, insert_fails := false }).1.clock ∧
     (processItem pipe0 "k" { initState 100 [] with requests_made := 99 } (0, 0)
        { sub := subX, insert_fails := false }).1.clock =
       wait_for_rate_limit ({ initState 100 [] with requests_made := 99 } : FetchState).clock
         ({ initState 100 [] with requests_made := 99 } : FetchState).start_time ∧
     (({ initState 100 [] with requests_made := 99 } : FetchState).clock <
        ({ initState 100 [] with requests_made := 99 } : FetchState).start_time + 60 →
       (processItem pipe0 "k" { initState 100 [] with requests_made := 99 } (0, 0)
          { sub := subX, insert_fails := false }).1.clock =
         ({ initState 100 [] with requests_made := 99 } : FetchState).start_time + 60 ∧
       (processItem pipe0 "k" { initState 100 [] with requests_made := 99 } (0, 0)
          { sub := subX, insert_fails := false }).1.clock -
          ({ initState 100 [] with requests_made := 99 } : FetchState).clock =
         60 - (({ initState 100 [] with requests_made := 99 } : FetchState).clock -
           ({ initState 100 [] with requests_made := 99 } : FetchState).start_time)) ∧
     (({ initState 100 [] with requests_made := 99 } : FetchState).start_time + 60 ≤
        ({ initState 100 [] with requests_made := 99 } : FetchState).clock →
       (processItem pipe0 "k" { initState 100 [] with requests_made := 99 } (0, 0)
          { sub := subX, insert_fails := false }).1.clock =
         ({ initState 100 [] with requests_made := 99 } : FetchState).clock)) :=
  ⟨by decide, rfl, rfl, by decide,
   c5_throttle pipe0 "k" { initState 100 [] with requests_made := 99 } (0, 0)
     { sub := subX, insert_fails := false } (by decide) rfl rfl (by decide)⟩

/-- C4: any error raised inside a cycle — whichever `except` arm catches it —
yields the identical treatment: the loop iteration returns the state reached
at the failure point with the clock advanced by exactly the 60-second
backoff (independently of the error kind), and the remaining scheduled
cycles still run: the loop is not terminated. -/
theorem c4_uniform_error_handling (pipeline : String → SentimentResult)
    (s : FetchState) (c : Cycle) (cs : List Cycle) (s3 : FetchState) (e : CycleError)
    (h : cycleAttempt pipeline s c = (s3, some e)) :
    loopIter pipeline s c = { s3 with clock := s3.clock + 60 } ∧
    runLoop pipeline s (c :: cs) = runLoop pipeline (loopIter pipeline s c) cs := by
  constructor
  · unfold loopIter
    rw [h]
  · rfl

/-- Witness for C4: a cycle whose search raises is caught, backs off 60
seconds, and the loop goes on. -/
theorem c4_uniform_error_handling_witness :
    cycleAttempt pipe0 (initState 100 []) [("k", Batch.searchErr)] =
      ({ initState 100 [] with cycle_count := 1 }, some CycleError.prawcore) ∧
    loopIter pipe0 (initState 100 []) [("k", Batch.searchErr)] =
      { ({ initState 100 [] with cycle_count := 1 } : FetchState) with
          clock := ({ initState 100 [] with cycle_count := 1 } : FetchState).clock + 60 } :=
  ⟨by decide,
   (c4_uniform_error_handling pipe0 (initState 100 []) [("k", Batch.searchErr)] []
      { initState 100 [] with cycle_count := 1 } CycleError.prawcore (by decide)).1⟩

/-- C7: after a cycle completes successfully, its completion time is
recorded (`last_fetch_time = clock`), and the next cycle's first fetch
starts exactly 60 seconds after that completion; in general, when less than
60 seconds have elapsed since `last_fetch_time` the wait phase sleeps
exactly the remaining time (ending at `last_fetch_time + 60`), and
otherwise it does not sleep, so a fetch never starts earlier than 60
seconds after the previous successful completion. -/
theorem c7_intercycle_delay (pipeline : String → SentimentResult)
    (s : FetchState) (c : Cycle) (s3 : FetchState)
    (h : cycleAttempt pipeline s c = (s3, none)) :
    (loopIter pipeline s c).last_fetch_time = (loopIter pipeline s c).clock ∧
    fetchStart (loopIter pipeline s c) = (loopIter pipeline s c).last_fetch_time + 60 ∧
    (∀ t last, last ≤ t →
      last + 60 ≤ waitPhase t last ∧
      (t < last + 60 →
        waitPhase t last = last + 60 ∧ waitPhase t last - t = 60 - (t - last)) ∧
      (last + 60 ≤ t → waitPhase t last = t)) := by
  refine ⟨?_, ?_, ?_⟩
  · unfold loopIter
    rw [h]
  · unfold loopIter
    rw [h]
    show waitPhase s3.clock s3.clock = s3.clock + 60
    unfold waitPhase
    simp
  · intro t last hle
    unfold waitPhase
    refine ⟨?_, fun h1 => ⟨?_, ?_⟩, fun h2 => ?_⟩ <;> split <;> omega

/-- Witness for C7: an empty successful cycle records its completion time
and the next fetch would start 60 seconds later. -/
theorem c7_intercycle_delay_witness :
    cycleAttempt pipe0 (initState 100 []) [] =
      ({ initState 100 [] with cycle_count := 1 }, none) ∧
    (loopIter pipe0 (initState 100 []) []).last_fetch_time =
      (loopIter pipe0 (initState 100 []) []).clock ∧
    fetchStart (loopIter pipe0 (initState 100 []) []) =
      (loopIter pipe0 (initState 100 []) []).last_fetch_time + 60 :=
  ⟨by decide,
   (c7_intercycle_delay pipe0 (initState 100 []) []
      { initState 100 [] with cycle_count := 1 } (by decide)).1,
   (c7_intercycle_delay pipe0 (initState 100 []) []
      { initState 100 [] with cycle_count := 1 } (by decide)).2.1⟩

/-- C10: when an error aborts a cycle partway through, the store at the
failure point extends the store the cycle started from (inserts are
append-only at every item step), and the `except` arm keeps that store
untouched: no rollback happens, so the post-failure store reflects exactly
the items processed before the failure. -/
theorem c10_no_rollback (pipeline : String → SentimentResult)
    (s : FetchState) (c : Cycle) (s3 : FetchState) (e : CycleError)
    (h : cycleAttempt pipeline s c = (s3, some e)) :
    (∃ inserted, s3.store = s.store ++ inserted) ∧
    (loopIter pipeline s c).store = s3.store ∧
    (∀ kw (s1 : FetchState) counts it, ∃ ext,
      (processItem pipeline kw s1 counts it).1.store = s1.store ++ ext) := by
  refine ⟨?_, ?_, fun kw s1 counts it => processItem_store_extend pipeline kw s1 counts it⟩
  · obtain ⟨ext, he⟩ := runKeywords_store_extend pipeline c
      { s with cycle_count := s.cycle_count + 1
               clock := waitPhase s.clock s.last_fetch_time }
    unfold cycleAttempt at h
    rw [h] at he
    exact ⟨ext, he⟩
  · unfold loopIter
    rw [h]

/-- Witness for C10: a cycle that inserts one item for its first keyword and
then fails on its second keyword's search keeps the inserted record. -/
theorem c10_no_rollback_witness :
    cycleAttempt pipe0 (initState 100 [])
        [("k", Batch.ok [{ sub := subX, insert_fails := false }]), ("g", Batch.searchErr)] =
      ({ initState 100 [] with
          cycle_count := 1
          store := [postX]
          requests_made := 1
          since_reset := [100]
          classify_calls := ["x1"] }, some CycleError.prawcore) ∧
    (∃ inserted,
      ({ initState 100 [] with
          cycle_count := 1
          store := [postX]
          requests_made := 1
          since_reset := [100]
          classify_calls := ["x1"] } : FetchState).store =
        (initState 100 []).store ++ inserted) :=
  ⟨by decide,
   (c10_no_rollback pipe0 (initState 100 [])
      [("k", Batch.ok [{ sub := subX, insert_fails := false }]), ("g", Batch.searchErr)]
      { initState 100 [] with
          cycle_count := 1
          store := [postX]
          requests_made := 1
          since_reset := [100]
          classify_calls := ["x1"] } CycleError.prawcore (by decide)).1⟩

/-! ### Generic invariant preservation -/

theorem processItems_preserves (P : FetchState → Prop) (A : FetchedItem → Prop)
    (hItem : ∀ pipeline kw s counts it, A it →
      P s → P (processItem pipeline kw s counts it).1)
    (pipeline : String → SentimentResult) (kw : String) :
    ∀ (items : List FetchedItem) (s : FetchState) (counts : Nat × Nat),
    (∀ it ∈ items, A it) → P s → P (processItems pipeline kw s counts items).1 := by
  intro items
  induction items with
  | nil => intro s counts _ hP; simpa [processItems] using hP
  | cons it rest ih =>
    intro s counts hA hP
    rcases h : processItem pipeline kw s counts it with ⟨s1, counts1, e⟩
    have hP1 : P s1 := by
      have := hItem pipeline kw s counts it (hA it (by simp)) hP
      rwa [h] at this
    cases e with
    | none =>
      have := ih s1 counts1 (fun x hx => hA x (by simp [hx])) hP1
      simpa [processItems, h] using this
    | some e1 =>
      simpa [processItems, h] using hP1

theorem runKeywords_preserves (P : FetchState → Prop) (A : FetchedItem → Prop)
    (hItem : ∀ pipeline kw s counts it, A it →
      P s → P (processItem pipeline kw s counts it).1)
    (pipeline : String → SentimentResult) :
    ∀ (kbs : List (String × Batch)) (s : FetchState),
    (∀ kb ∈ kbs, ∀ it ∈ batchItems kb.2, A it) →
    P s → P (runKeywords pipeline s kbs).1 := by
  intro kbs
  induction kbs with
  | nil => intro s _ hP; simpa [runKeywords] using hP
  | cons kb rest ih =>
    intro s hA hP
    rcases kb with ⟨kw, b⟩
    cases b with
    | ok items =>
      rcases h : processItems pipeline kw s (0, 0) items with ⟨s1, counts1, e⟩
      have hP1 : P s1 := by
        have := processItems_preserves P A hItem pipeline kw items s (0, 0)
          (fun x hx => hA (kw, Batch.ok items) (by simp) x (by simpa [batchItems] using hx)) hP
        rwa [h] at this
      cases e with
      | none =>
        have := ih s1 (fun x hx => hA x (by simp [hx])) hP1
        simp only [runKeywords, processBatch, h]
        exact this
      | some e1 =>
        simp only [runKeywords, processBatch, h]
        exact hP1
    | searchErr =>
      simpa [runKeywords, processBatch] using hP

theorem loopIter_preserves (P : FetchState → Prop) (A : FetchedItem → Prop)
    (hItem : ∀ pipeline kw s counts it, A it →
      P s → P (processItem pipeline kw s counts it).1)
    (hClock : ∀ (s : FetchState) c2, s.clock ≤ c2 → P s → P { s with clock := c2 })
    (hCycle : ∀ s : FetchState, P s → P { s with cycle_count := s.cycle_count + 1 })
    (hLast : ∀ (s : FetchState) v, P s → P { s with last_fetch_time := v })
    (pipeline : String → SentimentResult) (s : FetchState) (c : Cycle)
    (hA : ∀ kb ∈ c, ∀ it ∈ batchItems kb.2, A it) (hP : P s) :
    P (loopIter pipeline s c) := by
  have h1 : P { s with cycle_count := s.cycle_count + 1
                       clock := waitPhase s.clock s.last_fetch_time } := by
    have h2 := hCycle s hP
    exact hClock { s with cycle_count := s.cycle_count + 1 }
      (waitPhase s.clock s.last_fetch_time) (waitPhase_ge _ _) h2
  rcases hrk : runKeywords pipeline
      { s with cycle_count := s.cycle_count + 1
               clock := waitPhase s.clock s.last_fetch_time } c with ⟨s3, e⟩
  have hP3 : P s3 := by
    have := runKeywords_preserves P A hItem pipeline c
      { s with cycle_count := s.cycle_count + 1
               clock := waitPhase s.clock s.last_fetch_time } hA h1
    rwa [hrk] at this
  cases e with
  | none =>
    have : loopIter pipeline s c = { s3 with last_fetch_time := s3.clock } := by
      unfold loopIter cycleAttempt
      rw [hrk]
    rw [this]
    exact hLast s3 s3.clock hP3
  | some e1 =>
    have : loopIter pipeline s c = { s3 with clock := s3.clock + 60 } := by
      unfold loopIter cycleAttempt
      rw [hrk]
    rw [this]
    exact hClock s3 (s3.clock + 60) (Nat.le_add_right _ _) hP3

theorem runLoop_preserves (P : FetchState → Prop) (A : FetchedItem → Prop)
    (hItem : ∀ pipeline kw s counts it, A it →
      P s → P (processItem pipeline kw s counts it).1)
    (hClock : ∀ (s : FetchState) c2, s.clock ≤ c2 → P s → P { s with clock := c2 })
    (hCycle : ∀ s : FetchState, P s → P { s with cycle_count := s.cycle_count + 1 })
    (hLast : ∀ (s : FetchState) v, P s → P { s with last_fetch_time := v })
    (pipeline : String → SentimentResult) :
    ∀ (cycles : List Cycle) (s : FetchState),
    scheduleOK A cycles → P s → P (runLoop pipeline s cycles) := by
  intro cycles
  induction cycles with
  | nil => intro s _ hP; exact hP
  | cons c cs ih =>
    intro s hA hP
    have h1 : P (loopIter pipeline s c) :=
      loopIter_preserves P A hItem hClock hCycle hLast pipeline s c
        (hA c (by simp)) hP
    exact ih (loopIter pipeline s c) (fun x hx kb hkb it hit => hA x (by simp [hx]) kb hkb it hit) h1

/-! ### Dedup invariant (C2) and counter invariant (C9) -/

theorem not_mem_store_ids_of_find?_not_isSome (s : FetchState) (i : String)
    (hex : ¬ ((s.store.find? (fun p => p.id == i)).isSome = true)) :
    i ∉ s.store.map PostData.id := by
  intro hmem
  obtain ⟨p, hp, hpid⟩ := List.mem_map.1 hmem
  exact hex (List.find?_isSome.2 ⟨p, hp, by simp [hpid]⟩)

theorem processItem_storeIdsNodup (pipeline : String → SentimentResult)
    (kw : String) (s : FetchState) (counts : Nat × Nat) (it : FetchedItem)
    (hP : storeIdsNodup s) :
    storeIdsNodup (processItem pipeline kw s counts it).1 := by
  by_cases hex : (s.store.find? (fun p => p.id == it.sub.id)).isSome = true
  · simpa [processItem, hex] using hP
  · have hnot : it.sub.id ∉ s.store.map PostData.id :=
      not_mem_store_ids_of_find?_not_isSome s it.sub.id hex
    by_cases hf : it.insert_fails = true
    · simpa [processItem, hex, hf, storeIdsNodup] using hP
    · by_cases hr : s.requests_made + 1 ≥ 100 <;>
      · simp only [processItem, hex, if_false, hf, hr, if_true, ite_false, ite_true,
          Bool.false_eq_true]
        simp [storeIdsNodup, mkPostData, List.nodup_append] at hP ⊢
        exact ⟨hP, fun p hp hpid => hnot (List.mem_map.2 ⟨p, hp, hpid⟩)⟩

theorem length_filter_le_one_of_nodup_map {α β : Type} [BEq β] [LawfulBEq β]
    (f : α → β) (q : α → Bool) :
    ∀ (l : List α), (l.map f).Nodup → ∀ b,
      (l.filter (fun a => f a == b && q a)).length ≤ 1 := by
  intro l
  induction l with
  | nil => intro _ b; simp
  | cons a t ih =>
    intro hnd b
    rw [List.map_cons, List.nodup_cons] at hnd
    by_cases hb : (f a == b && q a) = true
    · have hb' : (f a == b) = true ∧ q a = true := by simpa using hb
      have hfa : f a = b := eq_of_beq hb'.1
      have hnil : t.filter (fun x => f x == b && q x) = [] := by
        apply List.filter_eq_nil_iff.2
        intro x hx hqx
        have hqx' : (f x == b) = true ∧ q x = true := by simpa using hqx
        have hfx : f x = b := eq_of_beq hqx'.1
        exact hnd.1 (List.mem_map.2 ⟨x, hx, by rw [hfx, hfa]⟩)
      simp [List.filter_cons, hb, hnil]
    · simpa [List.filter_cons, hb] using ih hnd.2 b

/-- C2: in every state the loop can reach from a store with pairwise
distinct ids, the store still has pairwise distinct ids — an insert happens
only after the existence lookup on that id found nothing — and hence it
holds at most one record per id and per (id, keyword) pair. -/
theorem c2_at_most_one_record_per_id (pipeline : String → SentimentResult)
    (s : FetchState) (cycles : List Cycle) (h : storeIdsNodup s) :
    storeIdsNodup (runLoop pipeline s cycles) ∧
    (∀ idv kw, ((runLoop pipeline s cycles).store.filter
        (fun p => p.id == idv && p.keyword == kw)).length ≤ 1) ∧
    (∀ kw (s1 : FetchState) counts it, storeIdsNodup s1 →
      storeIdsNodup (processItem pipeline kw s1 counts it).1) := by
  have hmain : storeIdsNodup (runLoop pipeline s cycles) := by
    apply runLoop_preserves storeIdsNodup (fun _ => True)
      (fun pipeline kw s counts it _ hP => processItem_storeIdsNodup pipeline kw s counts it hP)
      (fun s c2 _ hP => hP) (fun s hP => hP) (fun s v hP => hP)
      pipeline cycles s (fun _ _ _ _ _ _ => trivial) h
  refine ⟨hmain, fun idv kw => ?_,
    fun kw s1 counts it hP => processItem_storeIdsNodup pipeline kw s1 counts it hP⟩
  exact length_filter_le_one_of_nodup_map PostData.id
    (fun p => p.keyword == kw) _ hmain idv

/-- Witness for C2: starting from an empty store and running the
counterexample schedule (which re-fetches the same item), the store keeps
distinct ids. -/
theorem c2_at_most_one_record_per_id_witness :
    storeIdsNodup (initState 100 []) ∧
    storeIdsNodup (runLoop pipe0 (initState 100 []) cexCycles) ∧
    ((runLoop pipe0 (initState 100 []) cexCycles).store.filter
        (fun p => p.id == "x1" && p.keyword == "k")).length ≤ 1 :=
  ⟨by simp [storeIdsNodup, initState],
   (c2_at_most_one_record_per_id pipe0 (initState 100 []) cexCycles
      (by simp [storeIdsNodup, initState])).1,
   (c2_at_most_one_record_per_id pipe0 (initState 100 []) cexCycles
      (by simp [storeIdsNodup, initState])).2.1 "x1" "k"⟩

theorem processItem_counterInv (pipeline : String → SentimentResult)
    (kw : String) (s : FetchState) (counts : Nat × Nat) (it : FetchedItem)
    (hP : counterInv s) :
    counterInv (processItem pipeline kw s counts it).1 := by
  by_cases hex : (s.store.find? (fun p => p.id == it.sub.id)).isSome = true
  · simpa [processItem, hex] using hP
  · by_cases hf : it.insert_fails = true
    · simpa [processItem, hex, hf, counterInv] using hP
    · by_cases hr : s.requests_made + 1 ≥ 100 <;>
      · simp only [processItem, hex, if_false, hf, hr, if_true, ite_false, ite_true,
          Bool.false_eq_true]
        simp [counterInv] at hP ⊢
        try omega

/-- C9: the rate-governor counter counts exactly the inserts performed since
the last counter reset: the equality `requests_made = number of inserts
since the last reset` is preserved by any run of the loop, and neither a
skipped (already-seen) item nor a failed search changes the counter. -/
theorem c9_counter_counts_inserts (pipeline : String → SentimentResult)
    (s : FetchState) (cycles : List Cycle) (h : counterInv s) :
    counterInv (runLoop pipeline s cycles) ∧
    (∀ kw (s1 : FetchState) counts it,
      (s1.store.find? (fun p => p.id == it.sub.id)).isSome = true →
      (processItem pipeline kw s1 counts it).1.requests_made = s1.requests_made) ∧
    (∀ kw (s1 : FetchState),
      (processBatch pipeline s1 (kw, Batch.searchErr)).1.requests_made = s1.requests_made) ∧
    (∀ kw (s1 : FetchState) counts it, counterInv s1 →
      counterInv (processItem pipeline kw s1 counts it).1) := by
  refine ⟨?_, ?_, ?_,
    fun kw s1 counts it hP => processItem_counterInv pipeline kw s1 counts it hP⟩
  · apply runLoop_preserves counterInv (fun _ => True)
      (fun pipeline kw s counts it _ hP => processItem_counterInv pipeline kw s counts it hP)
      (fun s c2 _ hP => hP) (fun s hP => hP) (fun s v hP => hP)
      pipeline cycles s (fun _ _ _ _ _ _ => trivial) h
  · intro kw s1 counts it hex
    simp [processItem, hex]
  · intro kw s1
    simp [processBatch]

/-- Witness for C9: from the initial state (counter 0, no inserts) the
equality persists across the counterexample schedule, and a skip leaves the
counter alone. -/
theorem c9_counter_counts_inserts_witness :
    counterInv (initState 100 []) ∧
    counterInv (runLoop pipe0 (initState 100 []) cexCycles) ∧
    (processItem pipe0 "k" (initState 100 [postX]) (0, 0)
        { sub := subX, insert_fails := false }).1.requests_made =
      (initState 100 [postX]).requests_made :=
  ⟨rfl,
   (c9_counter_counts_inserts pipe0 (initState 100 []) cexCycles rfl).1,
   (c9_counter_counts_inserts pipe0 (initState 100 []) cexCycles rfl).2.1 "k"
     (initState 100 [postX]) (0, 0) { sub := subX, insert_fails := false } (by decide)⟩

/-! ### At-most-once classification (C3) -/

theorem processItem_classifyInv (pipeline : String → SentimentResult)
    (kw : String) (s : FetchState) (counts : Nat × Nat) (it : FetchedItem)
    (hA : it.insert_fails = false) (hP : classifyInv s) :
    classifyInv (processItem pipeline kw s counts it).1 := by
  by_cases hex : (s.store.find? (fun p => p.id == it.sub.id)).isSome = true
  · simpa [processItem, hex] using hP
  · have hnot : it.sub.id ∉ s.store.map PostData.id :=
      not_mem_store_ids_of_find?_not_isSome s it.sub.id hex
    have hf : ¬ (it.insert_fails = true) := by simp [hA]
    have hnotc : it.sub.id ∉ s.classify_calls := fun hc => hnot (hP.2 it.sub.id hc)
    by_cases hr : s.requests_made + 1 ≥ 100 <;>
    · simp only [processItem, hex, if_false, hf, hr, if_true, ite_false, ite_true,
        Bool.false_eq_true]
      constructor
      · simpa [List.nodup_append] using ⟨hP.1, hnotc⟩
      · intro i hi
        rcases (by simpa using hi : i ∈ s.classify_calls ∨ i = it.sub.id) with hi1 | hi1
        · have := hP.2 i hi1
          simp only [List.map_append]
          exact List.mem_append_left _ this
        · simp [hi1, mkPostData]

/-- C3 (counterexample): with an `insert_one` failure injected after the
classification call, the re-fetched item is classified a second time, so
the classifier is invoked twice for id "x1" across the process lifetime —
refuting at-most-once enrichment as stated. -/
theorem c3_counterexample_double_classify :
    ¬ ((runLoop pipe0 (initState 100 []) cexCycles).classify_calls.count "x1" ≤ 1) := by
  decide

/-- C3 (amended): for any item id the classifier is invoked at most once
across the process lifetime, provided no cycle aborts with an error between
a classification call and the completion of the corresponding insert (here:
no injected insert failure; search errors may still abort cycles). -/
theorem c3_amended_at_most_once (pipeline : String → SentimentResult)
    (s : FetchState) (cycles : List Cycle)
    (hok : scheduleOK (fun it => it.insert_fails = false) cycles)
    (h : classifyInv s) :
    classifyInv (runLoop pipeline s cycles) ∧
    ∀ i, (runLoop pipeline s cycles).classify_calls.count i ≤ 1 := by
  have hmain : classifyInv (runLoop pipeline s cycles) := by
    apply runLoop_preserves classifyInv (fun it => it.insert_fails = false)
      (fun pipeline kw s counts it hA hP =>
        processItem_classifyInv pipeline kw s counts it hA hP)
      (fun s c2 _ hP => hP) (fun s hP => hP) (fun s v hP => hP)
      pipeline cycles s hok h
  exact ⟨hmain, fun i => List.nodup_iff_count_le_one.1 hmain.1 i⟩

/-- Witness for amended C3: a fault-free schedule that fetches the same item
in two consecutive cycles classifies it only once. -/
theorem c3_amended_at_most_once_witness :
    scheduleOK (fun it => it.insert_fails = false)
      [[("k", Batch.ok [{ sub := subX, insert_fails := false }])],
       [("k", Batch.ok [{ sub := subX, insert_fails := false }])]] ∧
    classifyInv (initState 100 []) ∧
    ∀ i, (runLoop pipe0 (initState 100 [])
        [[("k", Batch.ok [{ sub := subX, insert_fails := false }])],
         [("k", Batch.ok [{ sub := subX, insert_fails := false }])]]).classify_calls.count i ≤ 1 :=
  ⟨by unfold scheduleOK batchItems; decide,
   ⟨List.nodup_nil, by simp [initState]⟩,
   (c3_amended_at_most_once pipe0 (initState 100 [])
      [[("k", Batch.ok [{ sub := subX, insert_fails := false }])],
       [("k", Batch.ok [{ sub := subX, insert_fails := false }])]]
      (by unfold scheduleOK batchItems; decide)
      ⟨List.nodup_nil, by simp [initState]⟩).2⟩

/-! ### Rate window machinery (C6) -/

theorem windowChain_last_mem :
    ∀ (ws : List (Nat × List Nat)) (lo T : Nat) (evs : List Nat),
    windowChain lo (ws ++ [(T, evs)]) → ∀ t ∈ evs, T ≤ t
  | [], lo, T, evs, h, t, ht => by
    simp only [List.nil_append, windowChain] at h
    exact h.2.2.1 t ht
  | w :: ws, lo, T, evs, h, t, ht => by
    simp only [List.cons_append, windowChain] at h
    exact windowChain_last_mem ws (w.1 + 60) T evs h.2.2.2 t ht

theorem windowChain_replace_last :
    ∀ (ws : List (Nat × List Nat)) (lo T : Nat) (evs evs' : List Nat),
    windowChain lo (ws ++ [(T, evs)]) →
    evs'.length ≤ 100 → (∀ t ∈ evs', T ≤ t) →
    windowChain lo (ws ++ [(T, evs')])
  | [], lo, T, evs, evs', h, hlen, hmem => by
    simp only [List.nil_append, windowChain] at h ⊢
    exact ⟨h.1, hlen, hmem, trivial⟩
  | w :: ws, lo, T, evs, evs', h, hlen, hmem => by
    simp only [List.cons_append, windowChain] at h ⊢
    exact ⟨h.1, h.2.1, h.2.2.1,
      windowChain_replace_last ws (w.1 + 60) T evs evs' h.2.2.2 hlen hmem⟩

theorem windowChain_snoc :
    ∀ (ws : List (Nat × List Nat)) (lo T c2 : Nat) (evs : List Nat),
    windowChain lo (ws ++ [(T, evs)]) → T + 60 ≤ c2 →
    windowChain lo ((ws ++ [(T, evs)]) ++ [(c2, [])])
  | [], lo, T, c2, evs, h, hc => by
    simp only [List.nil_append, List.cons_append, windowChain] at h ⊢
    exact ⟨h.1, h.2.1, h.2.2.1, hc, by simp, by simp, trivial⟩
  | w :: ws, lo, T, c2, evs, h, hc => by
    simp only [List.cons_append, windowChain] at h ⊢
    exact ⟨h.1, h.2.1, h.2.2.1, windowChain_snoc ws (w.1 + 60) T c2 evs h.2.2.2 hc⟩

theorem windowChain_flat_lb :
    ∀ (ws : List (Nat × List Nat)) (lo : Nat), windowChain lo ws →
    ∀ t ∈ (ws.map Prod.snd).flatten, lo ≤ t
  | [], _, _, t, ht => by simp at ht
  | w :: ws, lo, h, t, ht => by
    simp only [windowChain] at h
    simp only [List.map_cons, List.flatten_cons, List.mem_append] at ht
    rcases ht with ht | ht
    · exact le_trans h.1 (h.2.2.1 t ht)
    · have := windowChain_flat_lb ws (w.1 + 60) h.2.2.2 t ht
      omega

theorem windowChain_window_bound :
    ∀ (ws : List (Nat × List Nat)) (lo : Nat), windowChain lo ws →
    ∀ (i : Nat) (h : i < ws.length),
    (((ws.drop i).map Prod.snd).flatten.filter
        (fun t => t < (ws.get ⟨i, h⟩).1 + 60)).length ≤ 101
  | [], _, _, i, h => by simp at h
  | w :: ws, lo, hch, 0, h => by
    simp only [windowChain] at hch
    obtain ⟨h1, h2, h3, h4⟩ := hch
    have hlb := windowChain_flat_lb ws (w.1 + 60) h4
    simp only [List.drop_zero, List.map_cons, List.flatten_cons, List.filter_append,
      List.length_append, List.get]
    have hnil : ((ws.map Prod.snd).flatten.filter (fun t => t < w.1 + 60)) = [] := by
      apply List.filter_eq_nil_iff.2
      intro t ht
      have := hlb t ht
      simp
      omega
    rw [hnil]
    have := List.length_filter_le (fun t => t < w.1 + 60) w.2
    simp only [List.length_nil]
    omega
  | w :: ws, lo, hch, (i + 1), h => by
    simp only [windowChain] at hch
    exact windowChain_window_bound ws (w.1 + 60) hch.2.2.2 i (Nat.lt_of_succ_lt_succ h)

theorem processItem_RateInv (pipeline : String → SentimentResult)
    (kw : String) (s : FetchState) (counts : Nat × Nat) (it : FetchedItem)
    (hP : RateInv s) :
    RateInv (processItem pipeline kw s counts it).1 := by
  obtain ⟨hc, h99, hsc, hwc⟩ := hP
  rw [windowSegments] at hwc
  have hlastmem : ∀ t ∈ s.since_reset, s.start_time ≤ t :=
    windowChain_last_mem s.windows 0 s.start_time s.since_reset hwc
  have hmem' : ∀ t ∈ s.since_reset ++ [s.clock], s.start_time ≤ t := by
    intro t ht
    rcases (by simpa using ht : t ∈ s.since_reset ∨ t = s.clock) with h1 | h1
    · exact hlastmem t h1
    · omega
  have hlen' : (s.since_reset ++ [s.clock]).length ≤ 100 := by
    simp only [List.length_append, List.length_cons, List.length_nil]
    omega
  by_cases hex : (s.store.find? (fun p => p.id == it.sub.id)).isSome = true
  · simpa [processItem, hex, RateInv] using ⟨hc, h99, hsc, by rw [windowSegments]; exact hwc⟩
  · by_cases hf : it.insert_fails = true
    · refine (by simpa [processItem, hex, hf, RateInv] using
        ⟨hc, h99, hsc, by rw [windowSegments]; exact hwc⟩ :
        RateInv (processItem pipeline kw s counts it).1)
    · by_cases hr : s.requests_made + 1 ≥ 100
      · simp only [processItem, hex, if_false, hf, hr, if_true, ite_false, ite_true,
          Bool.false_eq_true]
        refine ⟨rfl, Nat.zero_le _, le_refl _, ?_⟩
        rw [windowSegments]
        simp only
        have step1 := windowChain_replace_last s.windows 0 s.start_time s.since_reset
          (s.since_reset ++ [s.clock]) hwc hlen' hmem'
        have step2 := windowChain_snoc s.windows 0 s.start_time
          (wait_for_rate_limit s.clock s.start_time) (s.since_reset ++ [s.clock]) step1
          (wait_for_rate_limit_lb s.clock s.start_time hsc)
        exact step2
      · simp only [processItem, hex, if_false, hf, hr, if_true, ite_false, ite_true,
          Bool.false_eq_true]
        refine ⟨by simp [hc], by simp; omega, hsc, ?_⟩
        rw [windowSegments]
        simp only
        exact windowChain_replace_last s.windows 0 s.start_time s.since_reset
          (s.since_reset ++ [s.clock]) hwc hlen' hmem'

theorem RateInv_clock (s : FetchState) (c2 : Nat) (hle : s.clock ≤ c2)
    (hP : RateInv s) : RateInv { s with clock := c2 } := by
  obtain ⟨hc, h99, hsc, hwc⟩ := hP
  exact ⟨hc, h99, by simp; omega, hwc⟩

/-- C6: across any 60-second window measured from a throttle reset (each
window in `windowSegments` starts at a reset, or at process start for the
first one), the number of classification+persist operations performed from
that reset on whose timestamp falls before `start + 60` never exceeds
100 + 1 = 101. -/
theorem c6_rate_window_bound (pipeline : String → SentimentResult)
    (s : FetchState) (cycles : List Cycle) (h : RateInv s) :
    (∀ (i : Nat) (hi : i < (windowSegments (runLoop pipeline s cycles)).length),
    ((((windowSegments (runLoop pipeline s cycles)).drop i).map Prod.snd).flatten.filter
        (fun t => t < ((windowSegments (runLoop pipeline s cycles)).get ⟨i, hi⟩).1 + 60)).length
      ≤ 101) ∧
    (∀ kw (s1 : FetchState) counts it, RateInv s1 →
      RateInv (processItem pipeline kw s1 counts it).1) := by
  have hinv : RateInv (runLoop pipeline s cycles) := by
    apply runLoop_preserves RateInv (fun _ => True)
      (fun pipeline kw s counts it _ hP => processItem_RateInv pipeline kw s counts it hP)
      RateInv_clock
      (fun s hP => by
        obtain ⟨hc, h99, hsc, hwc⟩ := hP
        exact ⟨hc, h99, hsc, hwc⟩)
      (fun s v hP => by
        obtain ⟨hc, h99, hsc, hwc⟩ := hP
        exact ⟨hc, h99, hsc, hwc⟩)
      pipeline cycles s (fun _ _ _ _ _ _ => trivial) h
  refine ⟨fun i hi => ?_,
    fun kw s1 counts it hP => processItem_RateInv pipeline kw s1 counts it hP⟩
  exact windowChain_window_bound (windowSegments (runLoop pipeline s cycles)) 0
    hinv.2.2.2 i hi

/-- Witness for C6: the initial state satisfies the rate invariant and the
bound holds for the (single) window of the empty run. -/
theorem c6_rate_window_bound_witness :
    RateInv (initState 100 []) ∧
    ∀ (i : Nat) (hi : i < (windowSegments (runLoop pipe0 (initState 100 []) [])).length),
    ((((windowSegments (runLoop pipe0 (initState 100 []) [])).drop i).map Prod.snd).flatten.filter
        (fun t => t < ((windowSegments (runLoop pipe0 (initState 100 []) [])).get ⟨i, hi⟩).1 + 60)).length
      ≤ 101 := by
  have hinv : RateInv (initState 100 []) := by
    refine ⟨rfl, Nat.zero_le _, le_refl _, ?_⟩
    simp [windowSegments, initState, windowChain]
  exact ⟨hinv, (c6_rate_window_bound pipe0 (initState 100 []) [] hinv).1⟩

/-! ### Aggregation (C8) -/

theorem length_filter_add_length_filter_not {α : Type} (p : α → Bool) :
    ∀ (l : List α), (l.filter p).length + (l.filter (fun a => !(p a))).length = l.length
  | [] => rfl
  | a :: t => by
    have ih := length_filter_add_length_filter_not p t
    by_cases h : p a = true <;> simp [List.filter_cons, h] <;> omega

theorem sum_filter_lengths_over_keys {α β : Type} [BEq β] [LawfulBEq β] (f : α → β) :
    ∀ (keys : List β) (l : List α), keys.Nodup → (∀ a ∈ l, f a ∈ keys) →
    (keys.map (fun b => (l.filter (fun a => f a == b)).length)).sum = l.length
  | [], l, _, hcov => by
    have : l = [] := List.eq_nil_iff_forall_not_mem.2 (fun a ha => by simpa using hcov a ha)
    simp [this]
  | b :: rest, l, hnd, hcov => by
    rw [List.nodup_cons] at hnd
    have hsplit := length_filter_add_length_filter_not (fun a => f a == b) l
    have hterm : ∀ b2 ∈ rest,
        (l.filter (fun a => f a == b2)).length =
        ((l.filter (fun a => !(f a == b))).filter (fun a => f a == b2)).length := by
      intro b2 hb2
      rw [List.filter_filter]
      apply congrArg
      apply List.filter_congr
      intro a _
      by_cases hfa : (f a == b2) = true
      · have : f a = b2 := eq_of_beq hfa
        have hne : ¬ (f a == b) = true := by
          intro hc
          have hbb2 : b = b2 := by rw [← eq_of_beq hc, this]
          exact hnd.1 (hbb2 ▸ hb2)
        simp [hfa, hne]
      · simp [hfa]
    have hmapeq : rest.map (fun b2 => (l.filter (fun a => f a == b2)).length) =
        rest.map (fun b2 =>
          ((l.filter (fun a => !(f a == b))).filter (fun a => f a == b2)).length) :=
      List.map_congr_left hterm
    have hcov2 : ∀ a ∈ l.filter (fun a => !(f a == b)), f a ∈ rest := by
      intro a ha
      rw [List.mem_filter] at ha
      have h1 := hcov a ha.1
      have h2 : ¬ (f a == b) = true := by
        intro hc
        rw [hc] at ha
        simp at ha
      rcases List.mem_cons.1 h1 with h3 | h3
      · exact absurd (beq_of_eq h3) h2
      · exact h3
    have hrec := sum_filter_lengths_over_keys f rest (l.filter (fun a => !(f a == b)))
      hnd.2 hcov2
    simp only [List.map_cons, List.sum_cons, hmapeq, hrec]
    omega

/-- C8: the shutdown summary maps each keyword to, for each sentiment label,
the exact number of store records with that keyword and label; a keyword
appears in the summary iff the store holds at least one record for it, a
label appears under a keyword iff a record with both exists, and per
keyword the label counts sum to the total number of records for that
keyword. -/
theorem c8_aggregation_correct (store : List PostData) (kw : String) :
    (kw ∈ summaryKeywords store ↔ ∃ p ∈ store, p.keyword = kw) ∧
    (∀ lbl, lbl ∈ summaryLabels store kw ↔
      ∃ p ∈ store, p.keyword = kw ∧ p.sentiment_label = lbl) ∧
    (∀ lbl, summaryCount store kw lbl =
      (store.filter (fun p => p.keyword == kw && p.sentiment_label == lbl)).length) ∧
    ((summaryLabels store kw).map (fun lbl => summaryCount store kw lbl)).sum =
      (keywordRecords store kw).length := by
  refine ⟨?_, ?_, ?_, ?_⟩
  · simp [summaryKeywords, List.mem_dedup, List.mem_map]
  · intro lbl
    simp only [summaryLabels, keywordRecords, List.mem_dedup, List.mem_map,
      List.mem_filter]
    constructor
    · rintro ⟨p, ⟨hp, hpk⟩, hpl⟩
      exact ⟨p, hp, by simpa using hpk, hpl⟩
    · rintro ⟨p, hp, hpk, hpl⟩
      exact ⟨p, ⟨hp, by simpa using hpk⟩, hpl⟩
  · intro lbl
    rw [summaryCount, keywordRecords, List.filter_filter]
    apply congrArg
    apply List.filter_congr
    intro p _
    rw [Bool.and_comm]
  · exact sum_filter_lengths_over_keys PostData.sentiment_label
      (summaryLabels store kw) (keywordRecords store kw)
      (List.nodup_dedup _)
      (fun a ha => List.mem_dedup.2 (List.mem_map_of_mem _ ha))

end TinyTeamReddit
